import Mathlib

/-!
Verification development for the repository-analysis and response-extraction
pipeline of the DevOps automation tool (src/main.py).

Text is modelled as `List Char`.  The Python string primitives used by the
source (`str.strip`, `str.split`, `str.replace(old, '')`, `str.startswith`,
substring membership) are embedded below with Python's semantics; whitespace
is the character set Python's `str.strip` uses.  The filesystem and the JSON
parser are external collaborators: a repository is modelled by the presence
of root-level filenames together with the outcome of reading/parsing the two
manifests the code inspects (`none` modelling any exception thrown while
opening or parsing).  Printed warnings are modelled as a returned log.
-/

set_option maxRecDepth 10000

/-- Code points Python's `str.strip()` treats as whitespace. -/
def pythonWhitespaceCodes : List Nat :=
  [9, 10, 11, 12, 13, 28, 29, 30, 31, 32, 133, 160, 5760,
   8192, 8193, 8194, 8195, 8196, 8197, 8198, 8199, 8200, 8201, 8202,
   8232, 8233, 8239, 8287, 12288]

/-- Python's whitespace test, as used by `str.strip()`. -/
def pyIsSpace (c : Char) : Bool := pythonWhitespaceCodes.contains c.toNat

/-- Embedding of Python `s.strip()`: remove leading and trailing whitespace. -/
def pyStrip (s : List Char) : List Char :=
  ((s.dropWhile pyIsSpace).reverse.dropWhile pyIsSpace).reverse

/-- Worker for `pyRemove`: scans left to right; a positive counter means we are
inside a matched occurrence and the character is dropped without a new match
attempt, exactly as Python's non-overlapping `str.replace(old, '')` scan. -/
def pyRemoveGo (pat : List Char) : List Char → Nat → List Char
  | [], _ => []
  | _ :: rest, Nat.succ k => pyRemoveGo pat rest k
  | c :: rest, 0 =>
    if pat.isPrefixOf (c :: rest) then pyRemoveGo pat rest (pat.length - 1)
    else c :: pyRemoveGo pat rest 0

/-- Embedding of Python `s.replace(pat, '')` for a non-empty `pat`:
delete every occurrence found in a single left-to-right scan. -/
def pyRemove (pat s : List Char) : List Char := pyRemoveGo pat s 0

/-- Worker for `pySplit`, with the same skip-counter scheme as `pyRemoveGo`. -/
def pySplitGo (sep : List Char) : List Char → Nat → List (List Char)
  | [], _ => [[]]
  | _ :: rest, Nat.succ k => pySplitGo sep rest k
  | c :: rest, 0 =>
    if sep.isPrefixOf (c :: rest) then [] :: pySplitGo sep rest (sep.length - 1)
    else
      match pySplitGo sep rest 0 with
      | [] => [[c]]
      | h :: t => (c :: h) :: t

/-- Embedding of Python `s.split(sep)` for a non-empty separator:
non-overlapping left-to-right split, empty fragments kept. -/
def pySplit (sep s : List Char) : List (List Char) := pySplitGo sep s 0

/-- Embedding of Python `s.split('\n')`; for a single-character separator the
library `List.splitOn` has exactly Python's semantics. -/
def splitLines (s : List Char) : List (List Char) := s.splitOn '\n'

/-- Embedding of Python `'\n'.join(lines)`. -/
def joinNewline (lines : List (List Char)) : List Char := List.intercalate ['\n'] lines

/-- Embedding of Python substring membership `pat in s` (non-empty or empty pat). -/
def containsSub (pat : List Char) : List Char → Bool
  | [] => pat.isEmpty
  | c :: rest => pat.isPrefixOf (c :: rest) || containsSub pat rest

/-- Embedding of Python `s.lower()` (ASCII case folding, as the code's inputs use). -/
def pyLower (s : List Char) : List Char := s.map Char.toLower

/-! ## Response extraction (`_clean_dockerfile_response`, `_clean_k8s_response`) -/

/-- The fenced-code-block delimiter variants removed by the container-file
recovery, in the order the source replaces them. -/
def docker_fence_variants : List (List Char) :=
  ["```dockerfile".toList, "```".toList, "```docker".toList]

/-- The `replace` chain of `_clean_dockerfile_response`, in source order. -/
def stripDockerFences (response : List Char) : List Char :=
  pyRemove ("```docker".toList) (pyRemove ("```".toList) (pyRemove ("```dockerfile".toList) response))

/-- The line filter of `_clean_dockerfile_response`, applied to a stripped line:
keep it when non-empty and not starting with the filler openers. -/
def keepDockerLine (l : List Char) : Bool :=
  !l.isEmpty && !(("Here".toList).isPrefixOf l) && !(("This".toList).isPrefixOf l)

/-- The accumulation loop of `_clean_dockerfile_response`: strip each line,
append it when `keepDockerLine` holds. -/
def cleanDockerLines : List (List Char) → List (List Char)
  | [] => []
  | line :: rest =>
    if keepDockerLine (pyStrip line) then pyStrip line :: cleanDockerLines rest
    else cleanDockerLines rest

/-- Embedding of `DevOpsAITool._clean_dockerfile_response`. -/
def clean_dockerfile_response (response : List Char) : List Char :=
  joinNewline (cleanDockerLines (splitLines (stripDockerFences response)))

/-- The `replace` chain of `_clean_k8s_response`, in source order. -/
def stripK8sFences (response : List Char) : List Char :=
  pyRemove ("```".toList) (pyRemove ("```yml".toList) (pyRemove ("```yaml".toList) response))

/-- The trigger of `_clean_k8s_response`'s seek phase: the line's stripped form
starts with the top-level key marker or the document separator. -/
def qualifiesK8s (line : List Char) : Bool :=
  (("apiVersion:".toList).isPrefixOf (pyStrip line)) ||
    (("---".toList).isPrefixOf (pyStrip line))

/-- The two-phase loop of `_clean_k8s_response`; the boolean is the
`yaml_started` flag. -/
def cleanK8sLines : List (List Char) → Bool → List (List Char)
  | [], _ => []
  | line :: rest, true => line :: cleanK8sLines rest true
  | line :: rest, false =>
    if qualifiesK8s line then line :: cleanK8sLines rest true
    else cleanK8sLines rest false

/-- Embedding of `DevOpsAITool._clean_k8s_response`. -/
def clean_k8s_response (response : List Char) : List Char :=
  joinNewline (cleanK8sLines (splitLines (stripK8sFences response)) false)

/-- Modelled from the spec: container-file recovery stated in the spec's own
words — remove all occurrences of each fenced delimiter variant, trim every
line, drop lines that are empty or begin with the filler openers, and join the
survivors with newlines in order. -/
def specContainerRecovery (s : List Char) : List Char :=
  joinNewline
    (((splitLines (docker_fence_variants.foldl (fun acc v => pyRemove v acc) s)).map
        pyStrip).filter keepDockerLine)

/-- Modelled from the spec: orchestration-bundle recovery stated in the spec's
own words — strip the fence delimiters, then drop every line before the first
qualifying one and keep the rest unconditionally. -/
def specBundleRecovery (s : List Char) : List Char :=
  joinNewline ((splitLines (stripK8sFences s)).dropWhile (fun l => !qualifiesK8s l))

/-! ## Manifest splitting (the orchestration-bundle splitter in `main`) -/

/-- The resource-kind classifier of the splitter, first match wins. -/
def manifestTypeName (manifest : List Char) : String :=
  if containsSub ("kind: Deployment".toList) manifest then "deployment"
  else if containsSub ("kind: Service".toList) manifest then "service"
  else if containsSub ("kind: ConfigMap".toList) manifest then "configmap"
  else if containsSub ("kind: Ingress".toList) manifest then "ingress"
  else "unknown"

/-- Embedding of the splitter loop in `main`: split the bundle on the literal
separator, enumerate all fragments, and for each fragment that is non-blank
after stripping emit `(enumeration index, classified kind, stripped content)`
— the data used to build the fragment's filename and saved content. -/
def splitManifests (content : List Char) : List (Nat × String × List Char) :=
  ((pySplit ("---".toList) content).enum.filter
      (fun p => !(pyStrip p.2).isEmpty)).map
    (fun p => (p.1, manifestTypeName p.2, pyStrip p.2))

/-! ## Repository analysis (`analyze_repository`) -/

/-- The fields of a parsed `package.json` that the code reads; a `none` field
models a key missing from the JSON object. -/
structure PkgJson where
  name : Option String
  main : Option String
  scripts : List (String × String)
  dependencies : Option (List String)
deriving DecidableEq

/-- The node-ecosystem dependency summary stored under `dependencies['node']`. -/
structure NodeDeps where
  name : String
  mainFile : String
  scripts : List (String × String)
  dependencies : List String
deriving DecidableEq

/-- The summary built from a successfully parsed `package.json`. -/
def mkNodeDeps (p : PkgJson) : NodeDeps :=
  { name := p.name.getD "unknown", mainFile := p.main.getD "index.js",
    scripts := p.scripts, dependencies := p.dependencies.getD [] }

/-- A repository as the analyzer observes it: whether the path exists, which
filenames are present at the root, and the outcome of reading and parsing the
two manifests (`none` models an exception while opening or parsing). -/
structure Repo where
  pathExists : Bool
  files : List String
  packageJson : Option PkgJson
  requirementsTxt : Option (List Char)
deriving DecidableEq

/-- The analysis dictionary built by `analyze_repository`. -/
structure Analysis where
  languages : List String
  frameworks : List String
  package_managers : List String
  entry_points : List String
  node_deps : Option NodeDeps
  python_deps : Option (List (List Char))
  structure_ : List String
  is_web_app : Bool
  default_port : Nat
deriving DecidableEq

/-- The initial analysis dictionary. -/
def initialAnalysis : Analysis :=
  { languages := [], frameworks := [], package_managers := [], entry_points := [],
    node_deps := none, python_deps := none, structure_ := [],
    is_web_app := false, default_port := 3000 }

/-- The fixed probe table `package_files`, in source (insertion) order. -/
def package_files : List (String × String) :=
  [("package.json", "node"), ("requirements.txt", "python"), ("Pipfile", "python"),
   ("setup.py", "python"), ("pom.xml", "java"), ("build.gradle", "java"),
   ("Cargo.toml", "rust"), ("go.mod", "go"), ("composer.json", "php")]

/-- The fixed `common_files` marker table, in source order. -/
def common_files : List String :=
  ["Dockerfile", "docker-compose.yml", ".dockerignore", "README.md", "LICENSE",
   ".gitignore", "main.py", "app.py", "server.js", "index.js"]

/-- The conventional entry filenames recognised inside the common-files loop. -/
def entry_file_names : List String := ["main.py", "app.py", "server.js", "index.js"]

/-- The node web-framework allow-list. -/
def web_frameworks_node : List String :=
  ["express", "react", "vue", "angular", "next", "nuxt", "fastify", "koa"]

/-- The python web-framework allow-list. -/
def web_frameworks_python : List (List Char) :=
  ["flask".toList, "django".toList, "fastapi".toList, "tornado".toList,
   "pyramid".toList, "bottle".toList]

/-- The warning printed when `package.json` cannot be parsed. -/
def pkgJsonWarning : String := "Warning: Could not parse package.json"

/-- The warning printed when `requirements.txt` cannot be parsed. -/
def reqTxtWarning : String := "Warning: Could not parse requirements.txt"

/-- The requirements comprehension: for each line that is non-blank after
stripping and does not start with `#`, the stripped line's text before the
first `==`. -/
def parseRequirements (content : List Char) : List (List Char) :=
  (splitLines content).filterMap (fun line =>
    if !(pyStrip line).isEmpty && !(("#".toList).isPrefixOf line) then
      some ((pySplit ("==".toList) (pyStrip line)).headI)
    else none)

/-- One iteration of the `package_files` loop of `analyze_repository`, acting
on the analysis together with the warning log. -/
def stepPackageFile (r : Repo) (aw : Analysis × List String) (e : String × String) :
    Analysis × List String :=
  if e.1 ∈ r.files then
    if e.1 = "package.json" then
      match r.packageJson with
      | some pkg =>
        if web_frameworks_node.any (fun fw => (pkg.dependencies.getD []).contains fw) then
          ({ aw.1 with languages := aw.1.languages ++ [e.2],
                       package_managers := aw.1.package_managers ++ [e.1],
                       node_deps := some (mkNodeDeps pkg),
                       is_web_app := true, default_port := 3000 }, aw.2)
        else
          ({ aw.1 with languages := aw.1.languages ++ [e.2],
                       package_managers := aw.1.package_managers ++ [e.1],
                       node_deps := some (mkNodeDeps pkg) }, aw.2)
      | none =>
        ({ aw.1 with languages := aw.1.languages ++ [e.2],
                     package_managers := aw.1.package_managers ++ [e.1] },
         aw.2 ++ [pkgJsonWarning])
    else if e.1 = "requirements.txt" then
      match r.requirementsTxt with
      | some content =>
        if web_frameworks_python.any
            (fun fw => ((parseRequirements content).map pyLower).contains (pyLower fw)) then
          ({ aw.1 with languages := aw.1.languages ++ [e.2],
                       package_managers := aw.1.package_managers ++ [e.1],
                       python_deps := some (parseRequirements content),
                       is_web_app := true,
                       default_port :=
                         if ((parseRequirements content).map pyLower).contains
                             ("fastapi".toList) then 8000 else 5000 }, aw.2)
        else
          ({ aw.1 with languages := aw.1.languages ++ [e.2],
                       package_managers := aw.1.package_managers ++ [e.1],
                       python_deps := some (parseRequirements content) }, aw.2)
      | none =>
        ({ aw.1 with languages := aw.1.languages ++ [e.2],
                     package_managers := aw.1.package_managers ++ [e.1] },
         aw.2 ++ [reqTxtWarning])
    else
      ({ aw.1 with languages := aw.1.languages ++ [e.2],
                   package_managers := aw.1.package_managers ++ [e.1] }, aw.2)
  else aw

/-- One iteration of the `common_files` loop of `analyze_repository`. -/
def stepCommonFile (r : Repo) (a : Analysis) (fn : String) : Analysis :=
  if fn ∈ r.files then
    if fn ∈ entry_file_names then
      { a with structure_ := a.structure_ ++ [fn], entry_points := a.entry_points ++ [fn] }
    else
      { a with structure_ := a.structure_ ++ [fn] }
  else a

/-- The state after the first iteration of the `package_files` loop
(the `package.json` probe). -/
def pkgStep1 (r : Repo) : Analysis × List String :=
  stepPackageFile r (initialAnalysis, []) ("package.json", "node")

/-- The state after the second iteration of the `package_files` loop
(the `requirements.txt` probe). -/
def pkgStep2 (r : Repo) : Analysis × List String :=
  stepPackageFile r (pkgStep1 r) ("requirements.txt", "python")

/-- The two loops of `analyze_repository`, run in source order, yielding the
final analysis and the warning log. -/
def analyzeFold (r : Repo) : Analysis × List String :=
  ((common_files.foldl (stepCommonFile r)
      (package_files.foldl (stepPackageFile r) (initialAnalysis, [])).1),
   (package_files.foldl (stepPackageFile r) (initialAnalysis, [])).2)

/-- Embedding of `DevOpsAITool.analyze_repository` keeping the printed
warnings as a log; `Except.error ()` models the `FileNotFoundError` raise. -/
def analyze_repository_logged (r : Repo) : Except Unit (Analysis × List String) :=
  if r.pathExists = true then Except.ok (analyzeFold r) else Except.error ()

/-- Embedding of `DevOpsAITool.analyze_repository` (returned analysis only). -/
def analyze_repository (r : Repo) : Except Unit Analysis :=
  Except.map Prod.fst (analyze_repository_logged r)

/-! ### Derived characterizations of the analysis outcome -/

/-- Whether the node probe sets the web-app flag: `package.json` present,
parsed, and a listed dependency key is on the allow-list. -/
def nodeHit (r : Repo) : Bool :=
  decide ("package.json" ∈ r.files) &&
    (match r.packageJson with
     | some pkg => web_frameworks_node.any (fun fw => (pkg.dependencies.getD []).contains fw)
     | none => false)

/-- Whether the python probe sets the web-app flag: `requirements.txt`
present, readable, and a lowered requirement name is on the allow-list. -/
def pyHit (r : Repo) : Bool :=
  decide ("requirements.txt" ∈ r.files) &&
    (match r.requirementsTxt with
     | some content =>
       web_frameworks_python.any
         (fun fw => ((parseRequirements content).map pyLower).contains (pyLower fw))
     | none => false)

/-- The port the python probe would record on a hit. -/
def pyPortOf (r : Repo) : Nat :=
  match r.requirementsTxt with
  | some content =>
    if ((parseRequirements content).map pyLower).contains ("fastapi".toList) then 8000
    else 5000
  | none => 5000

/-! ## Concrete inputs used by counterexamples and witnesses -/

/-- A repository with two python marker files and a readable empty
requirements listing. -/
def repoTwoPython : Repo :=
  { pathExists := true, files := ["requirements.txt", "Pipfile"],
    packageJson := none, requirementsTxt := some ("".toList) }

/-- A repository whose node manifest lists `express` and whose requirements
listing names `flask`. -/
def repoBothFrameworks : Repo :=
  { pathExists := true, files := ["package.json", "requirements.txt"],
    packageJson := some { name := some "demo", main := none, scripts := [],
                          dependencies := some ["express"] },
    requirementsTxt := some ("flask==2.0".toList) }

/-- A repository whose node manifest lists `express`, with no requirements file. -/
def repoExpressOnly : Repo :=
  { pathExists := true, files := ["package.json"],
    packageJson := some { name := none, main := none, scripts := [],
                          dependencies := some ["express"] },
    requirementsTxt := none }

/-- A repository whose requirements listing names `fastapi`. -/
def repoFastapi : Repo :=
  { pathExists := true, files := ["requirements.txt"],
    packageJson := none, requirementsTxt := some ("fastapi==0.100.0".toList) }

/-- An existing directory with no marker file at all. -/
def repoEmptyDir : Repo :=
  { pathExists := true, files := [], packageJson := none, requirementsTxt := none }

/-- A non-existent path. -/
def repoMissing : Repo :=
  { pathExists := false, files := [], packageJson := none, requirementsTxt := none }

/-- A repository whose `package.json` is present but fails to parse. -/
def repoBadPkg : Repo :=
  { pathExists := true, files := ["package.json", "app.py"],
    packageJson := none, requirementsTxt := none }

/-- A repository whose `requirements.txt` is present but fails to read. -/
def repoBadReq : Repo :=
  { pathExists := true, files := ["requirements.txt"],
    packageJson := none, requirementsTxt := none }

/-- The backtick character (named, since a backtick cannot appear in a
character literal here). -/
def btChar : Char := "`".toList.headI

/-! # Lemmas -/

theorem bt1_eq : "`".toList = [btChar] := by decide

theorem bt2_eq : "``".toList = [btChar, btChar] := by decide

theorem bt3_eq : "```".toList = [btChar, btChar, btChar] := by decide

theorem pyRemoveGo_skip (pat : List Char) :
    ∀ (s : List Char) (k : Nat), pyRemoveGo pat s k = pyRemoveGo pat (s.drop k) 0 := by
  intro s
  induction s with
  | nil => intro k; cases k <;> rfl
  | cons c rest ih =>
    intro k
    cases k with
    | zero => rfl
    | succ m =>
      show pyRemoveGo pat rest m = _
      rw [ih m, List.drop_succ_cons]

/-- Core invariant of the `'```'`-removal pass: the output contains no
triple-backtick occurrence, and its one- and two-backtick prefixes can only
come from corresponding prefixes of the input. -/
theorem removeTriple_core :
    ∀ (n : Nat) (s : List Char), s.length ≤ n →
      (¬ ("```".toList <:+: pyRemove ("```".toList) s)) ∧
      (("`".toList <+: pyRemove ("```".toList) s) → ("`".toList <+: s)) ∧
      (("``".toList <+: pyRemove ("```".toList) s) → ("``".toList <+: s)) := by
  intro n
  induction n with
  | zero =>
    intro s hs
    have hnil : s = [] := List.length_eq_zero.mp (Nat.le_zero.mp hs)
    subst hnil
    refine ⟨?_, ?_, ?_⟩
    · simp [pyRemove, pyRemoveGo, List.infix_nil, bt3_eq]
    · simp [pyRemove, pyRemoveGo]
    · simp [pyRemove, pyRemoveGo]
  | succ n ih =>
    intro s hs
    cases s with
    | nil =>
      refine ⟨?_, ?_, ?_⟩
      · simp [pyRemove, pyRemoveGo, List.infix_nil, bt3_eq]
      · simp [pyRemove, pyRemoveGo]
      · simp [pyRemove, pyRemoveGo]
    | cons c rest =>
      by_cases hm : ("```".toList).isPrefixOf (c :: rest)
      · -- a match: the scan removes the three backticks and continues
        have hpre : "```".toList <+: c :: rest := List.isPrefixOf_iff_prefix.mp hm
        obtain ⟨u, hu⟩ := hpre
        rw [bt3_eq] at hu
        have hu' : btChar :: btChar :: btChar :: u = c :: rest := by simpa using hu
        have hc : c = btChar := by
          have := (List.cons.injEq btChar (btChar :: btChar :: u) c rest).mp hu'
          exact this.1.symm
        have hrest : rest = btChar :: btChar :: u := by
          have := (List.cons.injEq btChar (btChar :: btChar :: u) c rest).mp hu'
          exact this.2.symm
        have hstep : pyRemove ("```".toList) (c :: rest) = pyRemove ("```".toList) u := by
          show pyRemoveGo ("```".toList) (c :: rest) 0 = _
          rw [pyRemoveGo, if_pos hm]
          have hlen : ("```".toList).length - 1 = 2 := by decide
          rw [hlen, pyRemoveGo_skip, hrest]
          rfl
        have hul : u.length ≤ n := by
          have h2 : rest.length = u.length + 2 := by
            rw [hrest]; simp [List.length_cons]
          have hs' : rest.length + 1 ≤ n + 1 := by simpa using hs
          omega
        obtain ⟨ha, _, _⟩ := ih u hul
        refine ⟨by rw [hstep]; exact ha, ?_, ?_⟩
        · intro _
          rw [bt1_eq, hc]
          exact ⟨rest, rfl⟩
        · intro _
          rw [bt2_eq, hc, hrest]
          exact ⟨btChar :: u, rfl⟩
      · -- no match: the head character is kept
        have hstep : pyRemove ("```".toList) (c :: rest) =
            c :: pyRemove ("```".toList) rest := by
          show pyRemoveGo ("```".toList) (c :: rest) 0 = _
          rw [pyRemoveGo, if_neg hm]
          rfl
        have hrl : rest.length ≤ n := by
          have : rest.length + 1 ≤ n + 1 := by simpa using hs
          omega
        obtain ⟨ha, hb1, hb2⟩ := ih rest hrl
        refine ⟨?_, ?_, ?_⟩
        · intro hinf
          rw [hstep] at hinf
          rcases List.infix_cons_iff.mp hinf with hpref | htail
          · rw [bt3_eq, List.cons_prefix_cons] at hpref
            obtain ⟨hcb, h2⟩ := hpref
            have h2' : "``".toList <+: pyRemove ("```".toList) rest := by
              rw [bt2_eq]; exact h2
            have := hb2 h2'
            rw [bt2_eq] at this
            obtain ⟨v, hv⟩ := this
            apply hm
            apply List.isPrefixOf_iff_prefix.mpr
            rw [bt3_eq, ← hcb, ← hv]
            exact ⟨v, by simp⟩
          · exact ha htail
        · intro hp
          rw [hstep, bt1_eq, List.cons_prefix_cons] at hp
          rw [bt1_eq, List.cons_prefix_cons]
          exact ⟨hp.1, List.nil_prefix⟩
        · intro hp
          rw [hstep, bt2_eq, List.cons_prefix_cons] at hp
          obtain ⟨hcb, h1⟩ := hp
          have h1' : "`".toList <+: pyRemove ("```".toList) rest := by
            rw [bt1_eq]; exact h1
          have := hb1 h1'
          rw [bt1_eq] at this
          obtain ⟨v, hv⟩ := this
          rw [bt2_eq, List.cons_prefix_cons]
          exact ⟨hcb, by rw [← hv]; exact ⟨v, by simp⟩⟩

/-- After the `'```'`-removal pass no triple backtick remains. -/
theorem no_triple_after_remove (s : List Char) :
    ¬ ("```".toList <:+: pyRemove ("```".toList) s) :=
  (removeTriple_core s.length s (Nat.le_refl _)).1

/-- Removing a pattern that itself starts with a triple backtick from a text
containing no triple backtick is the identity. -/
theorem pyRemove_id (pat : List Char) (hp : "```".toList <+: pat) :
    ∀ u : List Char, ¬ ("```".toList <:+: u) → pyRemove pat u = u := by
  intro u
  induction u with
  | nil => intro _; rfl
  | cons c rest ih =>
    intro hu
    have hnm : ¬ pat.isPrefixOf (c :: rest) := by
      intro h
      exact hu ((hp.trans (List.isPrefixOf_iff_prefix.mp h)).isInfix)
    show pyRemoveGo pat (c :: rest) 0 = c :: rest
    rw [pyRemoveGo, if_neg hnm]
    have : ¬ ("```".toList <:+: rest) := fun h => hu (List.infix_cons h)
    exact congrArg (c :: ·) (ih this)

/-- The stripped container-file text contains no fence-delimiter variant. -/
theorem no_fence_in_stripped (s : List Char) :
    ∀ v ∈ docker_fence_variants, ¬ (v <:+: stripDockerFences s) := by
  intro v hv hinf
  have hnt : ¬ ("```".toList <:+:
      pyRemove ("```".toList) (pyRemove ("```dockerfile".toList) s)) :=
    no_triple_after_remove _
  have hlast : stripDockerFences s =
      pyRemove ("```".toList) (pyRemove ("```dockerfile".toList) s) := by
    unfold stripDockerFences
    exact pyRemove_id _ (by decide) _ hnt
  rw [hlast] at hinf
  have hbv : "```".toList <+: v := by
    simp only [docker_fence_variants, List.mem_cons, List.not_mem_nil, or_false] at hv
    rcases hv with rfl | rfl | rfl <;> decide
  exact hnt (hbv.isInfix.trans hinf)

/-- On text without a triple backtick, the container-file fence stripping is
the identity. -/
theorem stripDockerFences_id (s : List Char) (h : ¬ ("```".toList <:+: s)) :
    stripDockerFences s = s := by
  unfold stripDockerFences
  rw [pyRemove_id _ (by decide) s h, pyRemove_id _ (by decide) s h,
    pyRemove_id _ (by decide) s h]

/-- The accumulation loop of the container-file recovery is
filter-after-strip. -/
theorem cleanDockerLines_eq_filter (ls : List (List Char)) :
    cleanDockerLines ls = (ls.map pyStrip).filter keepDockerLine := by
  induction ls with
  | nil => rfl
  | cons l rest ih =>
    by_cases h : keepDockerLine (pyStrip l)
    · simp [cleanDockerLines, h, ih, List.filter_cons]
    · simp [cleanDockerLines, h, ih, List.filter_cons]

/-- Joining the split lines with newlines restores the text. -/
theorem joinNewline_splitLines (s : List Char) : joinNewline (splitLines s) = s := by
  unfold joinNewline splitLines
  exact List.intercalate_splitOn s '\n'

/-- Once the k8s scan has started, every line is kept. -/
theorem cleanK8sLines_true (ls : List (List Char)) : cleanK8sLines ls true = ls := by
  induction ls with
  | nil => rfl
  | cons l rest ih => simp [cleanK8sLines, ih]

/-- The seeking phase of the k8s scan is dropWhile-not-qualifying. -/
theorem cleanK8sLines_false (ls : List (List Char)) :
    cleanK8sLines ls false = ls.dropWhile (fun l => !qualifiesK8s l) := by
  induction ls with
  | nil => rfl
  | cons l rest ih =>
    by_cases h : qualifiesK8s l
    · simp [cleanK8sLines, h, List.dropWhile_cons, cleanK8sLines_true]
    · simp [cleanK8sLines, h, List.dropWhile_cons, ih]

/-! ### Enumeration lemmas for the manifest splitter -/

theorem mem_enumFrom_char {α : Type} :
    ∀ (l : List α) (n : Nat) (p : Nat × α), p ∈ List.enumFrom n l →
      n ≤ p.1 ∧ l[p.1 - n]? = some p.2 := by
  intro l
  induction l with
  | nil => intro n p hp; simp [List.enumFrom] at hp
  | cons a as ih =>
    intro n p hp
    simp only [List.enumFrom, List.mem_cons] at hp
    rcases hp with rfl | hp
    · exact ⟨Nat.le_refl _, by simp⟩
    · obtain ⟨h1, h2⟩ := ih (n + 1) p hp
      refine ⟨Nat.le_of_succ_le h1, ?_⟩
      have hd : p.1 - n = (p.1 - (n + 1)) + 1 := by omega
      rw [hd]
      simpa using h2

theorem enumFrom_pairwise_char {α : Type} :
    ∀ (l : List α) (n : Nat),
      (List.enumFrom n l).Pairwise (fun p q => p.1 < q.1) := by
  intro l
  induction l with
  | nil => intro n; simp [List.enumFrom]
  | cons a as ih =>
    intro n
    simp only [List.enumFrom]
    refine List.Pairwise.cons ?_ (ih (n + 1))
    intro q hq
    have := (mem_enumFrom_char as (n + 1) q hq).1
    omega

/-! ### Field characterizations of the analysis fold -/

theorem stepCommonFile_preserves (r : Repo) (a : Analysis) (fn : String) :
    (stepCommonFile r a fn).languages = a.languages ∧
    (stepCommonFile r a fn).node_deps = a.node_deps ∧
    (stepCommonFile r a fn).python_deps = a.python_deps ∧
    (stepCommonFile r a fn).is_web_app = a.is_web_app ∧
    (stepCommonFile r a fn).default_port = a.default_port := by
  unfold stepCommonFile
  repeat' split
  all_goals simp

theorem foldCommon_preserves (r : Repo) :
    ∀ (fns : List String) (a : Analysis),
      (fns.foldl (stepCommonFile r) a).languages = a.languages ∧
      (fns.foldl (stepCommonFile r) a).node_deps = a.node_deps ∧
      (fns.foldl (stepCommonFile r) a).python_deps = a.python_deps ∧
      (fns.foldl (stepCommonFile r) a).is_web_app = a.is_web_app ∧
      (fns.foldl (stepCommonFile r) a).default_port = a.default_port := by
  intro fns
  induction fns with
  | nil => intro a; exact ⟨rfl, rfl, rfl, rfl, rfl⟩
  | cons fn rest ih =>
    intro a
    obtain ⟨h1, h2, h3, h4, h5⟩ := ih (stepCommonFile r a fn)
    obtain ⟨g1, g2, g3, g4, g5⟩ := stepCommonFile_preserves r a fn
    rw [List.foldl_cons]
    exact ⟨h1.trans g1, h2.trans g2, h3.trans g3, h4.trans g4, h5.trans g5⟩

theorem stepCommonFile_entry_struct (r : Repo) (a : Analysis) (fn : String) :
    (stepCommonFile r a fn).entry_points =
      a.entry_points ++ (if decide (fn ∈ r.files) && decide (fn ∈ entry_file_names)
        then [fn] else []) ∧
    (stepCommonFile r a fn).structure_ =
      a.structure_ ++ (if decide (fn ∈ r.files) then [fn] else []) := by
  unfold stepCommonFile
  by_cases h1 : fn ∈ r.files
  · by_cases h2 : fn ∈ entry_file_names
    · simp [h1, h2]
    · simp [h1, h2]
  · simp [h1]

theorem foldCommon_entry_struct (r : Repo) :
    ∀ (fns : List String) (a : Analysis),
      (fns.foldl (stepCommonFile r) a).entry_points =
        a.entry_points ++ fns.filter
          (fun fn => decide (fn ∈ r.files) && decide (fn ∈ entry_file_names)) ∧
      (fns.foldl (stepCommonFile r) a).structure_ =
        a.structure_ ++ fns.filter (fun fn => decide (fn ∈ r.files)) := by
  intro fns
  induction fns with
  | nil => intro a; simp
  | cons fn rest ih =>
    intro a
    obtain ⟨h1, h2⟩ := ih (stepCommonFile r a fn)
    obtain ⟨g1, g2⟩ := stepCommonFile_entry_struct r a fn
    rw [List.foldl_cons]
    constructor
    · rw [h1, g1, List.filter_cons]
      by_cases hf : fn ∈ r.files <;> by_cases he : fn ∈ entry_file_names <;>
        simp [hf, he, List.append_assoc]
    · rw [h2, g2, List.filter_cons]
      by_cases hf : fn ∈ r.files <;> simp [hf, List.append_assoc]

theorem stepPackageFile_entry_struct (r : Repo) (aw : Analysis × List String)
    (e : String × String) :
    (stepPackageFile r aw e).1.entry_points = aw.1.entry_points ∧
    (stepPackageFile r aw e).1.structure_ = aw.1.structure_ := by
  unfold stepPackageFile
  repeat' split
  all_goals simp

theorem foldPackage_entry_struct (r : Repo) :
    ∀ (l : List (String × String)) (aw : Analysis × List String),
      ((l.foldl (stepPackageFile r) aw).1).entry_points = aw.1.entry_points ∧
      ((l.foldl (stepPackageFile r) aw).1).structure_ = aw.1.structure_ := by
  intro l
  induction l with
  | nil => intro aw; exact ⟨rfl, rfl⟩
  | cons e rest ih =>
    intro aw
    obtain ⟨h1, h2⟩ := ih (stepPackageFile r aw e)
    obtain ⟨g1, g2⟩ := stepPackageFile_entry_struct r aw e
    rw [List.foldl_cons]
    exact ⟨h1.trans g1, h2.trans g2⟩

theorem stepPackageFile_languages (r : Repo) (aw : Analysis × List String)
    (e : String × String) :
    (stepPackageFile r aw e).1.languages =
      aw.1.languages ++ (if e.1 ∈ r.files then [e.2] else []) := by
  unfold stepPackageFile
  by_cases hm : e.1 ∈ r.files
  · simp only [hm, if_true]
    repeat' split
    all_goals simp
  · simp [hm]

theorem foldPackage_languages (r : Repo) :
    ∀ (l : List (String × String)) (aw : Analysis × List String),
      ((l.foldl (stepPackageFile r) aw).1).languages =
        aw.1.languages ++
          (l.filter (fun e => decide (e.1 ∈ r.files))).map (fun e => e.2) := by
  intro l
  induction l with
  | nil => intro aw; simp
  | cons e rest ih =>
    intro aw
    rw [List.foldl_cons, ih (stepPackageFile r aw e), stepPackageFile_languages,
      List.filter_cons]
    by_cases hm : e.1 ∈ r.files
    · simp [hm, List.append_assoc]
    · simp [hm]

theorem stepPackageFile_other (r : Repo) (aw : Analysis × List String)
    (e : String × String) (h1 : e.1 ≠ "package.json") (h2 : e.1 ≠ "requirements.txt") :
    stepPackageFile r aw e =
      if e.1 ∈ r.files then
        ({ aw.1 with languages := aw.1.languages ++ [e.2],
                     package_managers := aw.1.package_managers ++ [e.1] }, aw.2)
      else aw := by
  unfold stepPackageFile
  rw [if_neg h1, if_neg h2]

theorem stepPackageFile_other_core (r : Repo) (aw : Analysis × List String)
    (e : String × String) (h1 : e.1 ≠ "package.json") (h2 : e.1 ≠ "requirements.txt") :
    (stepPackageFile r aw e).1.node_deps = aw.1.node_deps ∧
    (stepPackageFile r aw e).1.python_deps = aw.1.python_deps ∧
    (stepPackageFile r aw e).1.is_web_app = aw.1.is_web_app ∧
    (stepPackageFile r aw e).1.default_port = aw.1.default_port ∧
    (stepPackageFile r aw e).2 = aw.2 := by
  rw [stepPackageFile_other r aw e h1 h2]
  split
  all_goals simp

theorem foldPackage_rest_core (r : Repo) :
    ∀ (l : List (String × String)) (aw : Analysis × List String),
      (∀ e ∈ l, e.1 ≠ "package.json" ∧ e.1 ≠ "requirements.txt") →
      ((l.foldl (stepPackageFile r) aw).1).node_deps = aw.1.node_deps ∧
      ((l.foldl (stepPackageFile r) aw).1).python_deps = aw.1.python_deps ∧
      ((l.foldl (stepPackageFile r) aw).1).is_web_app = aw.1.is_web_app ∧
      ((l.foldl (stepPackageFile r) aw).1).default_port = aw.1.default_port ∧
      (l.foldl (stepPackageFile r) aw).2 = aw.2 := by
  intro l
  induction l with
  | nil => intro aw _; exact ⟨rfl, rfl, rfl, rfl, rfl⟩
  | cons e rest ih =>
    intro aw hl
    obtain ⟨he1, he2⟩ := hl e (List.mem_cons_self e rest)
    have hrest : ∀ x ∈ rest, x.1 ≠ "package.json" ∧ x.1 ≠ "requirements.txt" :=
      fun x hx => hl x (List.mem_cons_of_mem e hx)
    obtain ⟨h1, h2, h3, h4, h5⟩ := ih (stepPackageFile r aw e) hrest
    obtain ⟨g1, g2, g3, g4, g5⟩ := stepPackageFile_other_core r aw e he1 he2
    rw [List.foldl_cons]
    exact ⟨h1.trans g1, h2.trans g2, h3.trans g3, h4.trans g4, h5.trans g5⟩

theorem pj_ne_rt : ("package.json" : String) ≠ "requirements.txt" := by decide

theorem rt_ne_pj : ("requirements.txt" : String) ≠ "package.json" := by decide

theorem pkgStep1_port (r : Repo) : (pkgStep1 r).1.default_port = 3000 := by
  unfold pkgStep1 stepPackageFile
  repeat' split
  all_goals simp_all [initialAnalysis, pj_ne_rt, rt_ne_pj]

theorem pkgStep1_webapp (r : Repo) : (pkgStep1 r).1.is_web_app = nodeHit r := by
  unfold pkgStep1 stepPackageFile nodeHit
  repeat' split
  all_goals simp_all [initialAnalysis, pj_ne_rt, rt_ne_pj]

theorem pkgStep1_node (r : Repo) :
    (pkgStep1 r).1.node_deps =
      (if "package.json" ∈ r.files then Option.map mkNodeDeps r.packageJson else none) := by
  unfold pkgStep1 stepPackageFile
  repeat' split
  all_goals simp_all [initialAnalysis, pj_ne_rt, rt_ne_pj]

theorem pkgStep1_python (r : Repo) : (pkgStep1 r).1.python_deps = none := by
  unfold pkgStep1 stepPackageFile
  repeat' split
  all_goals simp_all [initialAnalysis, pj_ne_rt, rt_ne_pj]

theorem pkgStep1_warn (r : Repo) :
    (pkgStep1 r).2 =
      (if "package.json" ∈ r.files ∧ r.packageJson = none then [pkgJsonWarning] else []) := by
  unfold pkgStep1 stepPackageFile
  repeat' split
  all_goals simp_all [initialAnalysis, pj_ne_rt, rt_ne_pj]

theorem pkgStep2_port (r : Repo) :
    (pkgStep2 r).1.default_port = (if pyHit r = true then pyPortOf r else 3000) := by
  unfold pkgStep2 stepPackageFile pyHit pyPortOf
  repeat' split
  all_goals (try simp_all [pkgStep1_port, pj_ne_rt, rt_ne_pj])
  all_goals tauto

theorem pkgStep2_webapp (r : Repo) :
    (pkgStep2 r).1.is_web_app = (nodeHit r || pyHit r) := by
  unfold pkgStep2 stepPackageFile pyHit
  repeat' split
  all_goals simp_all [pkgStep1_webapp, pj_ne_rt, rt_ne_pj]

theorem pkgStep2_node (r : Repo) :
    (pkgStep2 r).1.node_deps =
      (if "package.json" ∈ r.files then Option.map mkNodeDeps r.packageJson else none) := by
  unfold pkgStep2 stepPackageFile
  repeat' split
  all_goals simp_all [pkgStep1_node, pj_ne_rt, rt_ne_pj]

theorem pkgStep2_python (r : Repo) :
    (pkgStep2 r).1.python_deps =
      (if "requirements.txt" ∈ r.files then Option.map parseRequirements r.requirementsTxt
       else none) := by
  unfold pkgStep2 stepPackageFile
  repeat' split
  all_goals simp_all [pkgStep1_python, pj_ne_rt, rt_ne_pj]

theorem pkgStep2_warn (r : Repo) :
    (pkgStep2 r).2 =
      (if "package.json" ∈ r.files ∧ r.packageJson = none then [pkgJsonWarning] else []) ++
      (if "requirements.txt" ∈ r.files ∧ r.requirementsTxt = none then [reqTxtWarning]
       else []) := by
  unfold pkgStep2 stepPackageFile
  repeat' split
  all_goals simp_all [pkgStep1_warn, pj_ne_rt, rt_ne_pj]

theorem pkgStep2_core (r : Repo) :
    (pkgStep2 r).1.default_port = (if pyHit r = true then pyPortOf r else 3000) ∧
    (pkgStep2 r).1.is_web_app = (nodeHit r || pyHit r) ∧
    (pkgStep2 r).1.node_deps =
      (if "package.json" ∈ r.files then Option.map mkNodeDeps r.packageJson else none) ∧
    (pkgStep2 r).1.python_deps =
      (if "requirements.txt" ∈ r.files then Option.map parseRequirements r.requirementsTxt
       else none) ∧
    (pkgStep2 r).2 =
      (if "package.json" ∈ r.files ∧ r.packageJson = none then [pkgJsonWarning] else []) ++
      (if "requirements.txt" ∈ r.files ∧ r.requirementsTxt = none then [reqTxtWarning]
       else []) :=
  ⟨pkgStep2_port r, pkgStep2_webapp r, pkgStep2_node r, pkgStep2_python r, pkgStep2_warn r⟩

theorem pkgFold_eq (r : Repo) :
    package_files.foldl (stepPackageFile r) (initialAnalysis, []) =
      List.foldl (stepPackageFile r) (pkgStep2 r)
        [("Pipfile", "python"), ("setup.py", "python"), ("pom.xml", "java"),
         ("build.gradle", "java"), ("Cargo.toml", "rust"), ("go.mod", "go"),
         ("composer.json", "php")] := rfl

/-- Every field of the completed analysis, characterized directly from the
repository, together with the warning log. -/
theorem analyzeFold_fields (r : Repo) :
    (analyzeFold r).1.default_port = (if pyHit r = true then pyPortOf r else 3000) ∧
    (analyzeFold r).1.is_web_app = (nodeHit r || pyHit r) ∧
    (analyzeFold r).1.node_deps =
      (if "package.json" ∈ r.files then Option.map mkNodeDeps r.packageJson else none) ∧
    (analyzeFold r).1.python_deps =
      (if "requirements.txt" ∈ r.files then Option.map parseRequirements r.requirementsTxt
       else none) ∧
    (analyzeFold r).2 =
      (if "package.json" ∈ r.files ∧ r.packageJson = none then [pkgJsonWarning] else []) ++
      (if "requirements.txt" ∈ r.files ∧ r.requirementsTxt = none then [reqTxtWarning]
       else []) ∧
    (analyzeFold r).1.languages =
      (package_files.filter (fun e => decide (e.1 ∈ r.files))).map (fun e => e.2) ∧
    (analyzeFold r).1.entry_points =
      common_files.filter
        (fun fn => decide (fn ∈ r.files) && decide (fn ∈ entry_file_names)) ∧
    (analyzeFold r).1.structure_ =
      common_files.filter (fun fn => decide (fn ∈ r.files)) := by
  obtain ⟨q1, q2, q3, q4, q5⟩ := pkgStep2_core r
  have hrest : ∀ e ∈ ([("Pipfile", "python"), ("setup.py", "python"), ("pom.xml", "java"),
      ("build.gradle", "java"), ("Cargo.toml", "rust"), ("go.mod", "go"),
      ("composer.json", "php")] : List (String × String)),
      e.1 ≠ "package.json" ∧ e.1 ≠ "requirements.txt" := by decide
  obtain ⟨f1, f2, f3, f4, f5⟩ := foldPackage_rest_core r _ (pkgStep2 r) hrest
  obtain ⟨c1, c2, c3, c4, c5⟩ := foldCommon_preserves r common_files
    (package_files.foldl (stepPackageFile r) (initialAnalysis, [])).1
  obtain ⟨e1, e2⟩ := foldCommon_entry_struct r common_files
    (package_files.foldl (stepPackageFile r) (initialAnalysis, [])).1
  obtain ⟨pe1, pe2⟩ := foldPackage_entry_struct r package_files (initialAnalysis, [])
  refine ⟨?_, ?_, ?_, ?_, ?_, ?_, ?_, ?_⟩
  · show (common_files.foldl (stepCommonFile r) _).default_port = _
    rw [c5, pkgFold_eq, f4, q1]
  · show (common_files.foldl (stepCommonFile r) _).is_web_app = _
    rw [c4, pkgFold_eq, f3, q2]
  · show (common_files.foldl (stepCommonFile r) _).node_deps = _
    rw [c2, pkgFold_eq, f1, q3]
  · show (common_files.foldl (stepCommonFile r) _).python_deps = _
    rw [c3, pkgFold_eq, f2, q4]
  · show (package_files.foldl (stepPackageFile r) (initialAnalysis, [])).2 = _
    rw [pkgFold_eq, f5, q5]
  · show (common_files.foldl (stepCommonFile r) _).languages = _
    rw [c1, foldPackage_languages r package_files (initialAnalysis, [])]
    simp [initialAnalysis]
  · show (common_files.foldl (stepCommonFile r) _).entry_points = _
    rw [e1, pe1]
    simp [initialAnalysis]
  · show (common_files.foldl (stepCommonFile r) _).structure_ = _
    rw [e2, pe2]
    simp [initialAnalysis]

/-! ### Helpers for stating the claims -/

theorem analyze_ok (r : Repo) (hp : r.pathExists = true) :
    analyze_repository r = Except.ok ((analyzeFold r).1) := by
  unfold analyze_repository analyze_repository_logged
  rw [if_pos hp]
  rfl

theorem analyze_repository_eq (r : Repo) (a : Analysis)
    (h : analyze_repository r = Except.ok a) :
    r.pathExists = true ∧ a = (analyzeFold r).1 := by
  by_cases hp : r.pathExists = true
  · rw [analyze_ok r hp] at h
    exact ⟨hp, (Except.ok.injEq _ _ ▸ h).symm⟩
  · unfold analyze_repository analyze_repository_logged at h
    rw [if_neg hp] at h
    simp [Except.map] at h

theorem nodeHit_true (r : Repo) (pkg : PkgJson) (hm : "package.json" ∈ r.files)
    (hj : r.packageJson = some pkg)
    (hany : web_frameworks_node.any
      (fun fw => (pkg.dependencies.getD []).contains fw) = true) :
    nodeHit r = true := by
  unfold nodeHit
  simp only [hj]
  rw [hany]
  simp [hm]

theorem pyHit_true (r : Repo) (content : List Char) (hm : "requirements.txt" ∈ r.files)
    (hr : r.requirementsTxt = some content)
    (hany : web_frameworks_python.any
      (fun fw => ((parseRequirements content).map pyLower).contains (pyLower fw)) = true) :
    pyHit r = true := by
  unfold pyHit
  simp only [hr]
  rw [hany]
  simp [hm]

theorem pyHit_false_of_none (r : Repo) (hr : r.requirementsTxt = none) :
    pyHit r = false := by
  unfold pyHit
  simp only [hr]
  simp

theorem nodeHit_false_of_none (r : Repo) (hj : r.packageJson = none) :
    nodeHit r = false := by
  unfold nodeHit
  simp only [hj]
  simp

theorem pyPortOf_eq (r : Repo) (content : List Char)
    (hr : r.requirementsTxt = some content) :
    pyPortOf r =
      (if ((parseRequirements content).map pyLower).contains ("fastapi".toList)
       then 8000 else 5000) := by
  unfold pyPortOf
  simp only [hr]

theorem cleanDockerLines_id (ls : List (List Char))
    (h : ∀ l ∈ ls, pyStrip l = l ∧ l.isEmpty = false ∧
      (("Here".toList).isPrefixOf l) = false ∧ (("This".toList).isPrefixOf l) = false) :
    cleanDockerLines ls = ls := by
  induction ls with
  | nil => rfl
  | cons l rest ih =>
    obtain ⟨h1, h2, h3, h4⟩ := h l (List.mem_cons_self _ _)
    have hk : keepDockerLine (pyStrip l) = true := by
      rw [h1]
      unfold keepDockerLine
      rw [h2, h3, h4]
      rfl
    unfold cleanDockerLines
    rw [if_pos hk, h1, ih (fun x hx => h x (List.mem_cons_of_mem _ hx))]

/-! # Claims -/

/-- C1 counterexample: a repository with both `requirements.txt` and `Pipfile`
present at the root yields `languages = ["python", "python"]`, a duplicate —
the loop appends a language tag once per present probe file with no
already-present check. -/
theorem spec_c1_counterexample :
    (analyze_repository repoTwoPython).toOption.map Analysis.languages =
      some ["python", "python"] ∧
    ¬ (["python", "python"] : List String).Nodup := by
  exact ⟨by rfl, by decide⟩

/-- C1 (amended): for every repository the analysis succeeds on, `languages`
is exactly one tag per present probe file, in table order — so it is
duplicate-free if and only if the present probe files map to pairwise distinct
language tags, and it does contain duplicates whenever several present probe
filenames map to the same language. -/
theorem spec_c1_languages (r : Repo) (a : Analysis)
    (hok : analyze_repository r = Except.ok a) :
    a.languages =
      (package_files.filter (fun e => decide (e.1 ∈ r.files))).map (fun e => e.2) ∧
    (a.languages.Nodup ↔
      ((package_files.filter (fun e => decide (e.1 ∈ r.files))).map
        (fun e => e.2)).Nodup) := by
  obtain ⟨hp, rfl⟩ := analyze_repository_eq r a hok
  have hl := (analyzeFold_fields r).2.2.2.2.2.1
  exact ⟨hl, by rw [hl]⟩

/-- Witness for C1 (amended) at the duplicate-tag repository: the
characterization applies unconditionally and exhibits the duplicated tags. -/
theorem spec_c1_witness :
    ((analyzeFold repoTwoPython).1.languages =
      (package_files.filter (fun e => decide (e.1 ∈ repoTwoPython.files))).map
        (fun e => e.2)) ∧
    ((analyzeFold repoTwoPython).1.languages.Nodup ↔
      ((package_files.filter (fun e => decide (e.1 ∈ repoTwoPython.files))).map
        (fun e => e.2)).Nodup) :=
  spec_c1_languages repoTwoPython ((analyzeFold repoTwoPython).1) (by rfl)

/-- C2 counterexample: on `"a--- ---b"` — three separator-delimited fragments
with a blank middle — the splitter emits ordinals 0 and 2, not 0 and 1: the
index comes from enumerating all fragments, not only the surviving ones. -/
theorem spec_c2_counterexample :
    (splitManifests ("a--- ---b".toList)).map (fun x => x.1) = [0, 2] ∧
    ([0, 2] : List Nat) ≠ [0, 1] := by
  exact ⟨by rfl, by decide⟩

/-- C2 (amended): each surviving fragment's ordinal equals its position among
ALL separator-split fragments (blank fragments included), so ordinals are
strictly increasing — collision-free — but may leave gaps; ordinal `i` indexes
the `i`-th raw fragment, which is non-blank and whose stripped content and
classified kind are the emitted ones.  The blank-middle input yields ordinals
0 and 2 rather than 0 and 1. -/
theorem spec_c2_ordinals :
    (∀ content : List Char,
       ((splitManifests content).map (fun x => x.1)).Pairwise (· < ·) ∧
       ∀ x ∈ splitManifests content,
         ∃ m, (pySplit ("---".toList) content)[x.1]? = some m ∧
           (pyStrip m).isEmpty = false ∧
           x.2.1 = manifestTypeName m ∧ x.2.2 = pyStrip m) ∧
    splitManifests ("a--- ---b".toList) =
      [(0, "unknown", "a".toList), (2, "unknown", "b".toList)] := by
  constructor
  · intro content
    constructor
    · unfold splitManifests
      rw [List.map_map, List.pairwise_map]
      exact List.Pairwise.sublist (List.filter_sublist _)
        (enumFrom_pairwise_char (pySplit ("---".toList) content) 0)
    · intro x hx
      unfold splitManifests at hx
      obtain ⟨p, hp, rfl⟩ := List.mem_map.mp hx
      obtain ⟨hpe, hps⟩ := List.mem_filter.mp hp
      have hg := mem_enumFrom_char (pySplit ("---".toList) content) 0 p hpe
      refine ⟨p.2, by simpa using hg.2, by simpa using hps, rfl, rfl⟩
  · rfl

/-- Witness for C2 (amended): the first emitted fragment of the blank-middle
example indeed sits at raw position 0 with stripped content `"a"`. -/
theorem spec_c2_witness :
    ∃ m, (pySplit ("---".toList) ("a--- ---b".toList))[(0, ("unknown" : String),
        "a".toList).1]? = some m ∧
      (pyStrip m).isEmpty = false ∧
      (0, ("unknown" : String), "a".toList).2.1 = manifestTypeName m ∧
      (0, ("unknown" : String), "a".toList).2.2 = pyStrip m :=
  (spec_c2_ordinals.1 ("a--- ---b".toList)).2 (0, "unknown", "a".toList) (by decide)

/-- C3 counterexample: `"FROM alpine\n"` contains no fence delimiter and no
line beginning with a filler opener, yet recovery drops the final empty line
and returns `"FROM alpine"`, not the input — so idempotence as claimed fails. -/
theorem spec_c3_counterexample :
    ¬ ("```".toList <:+: ("FROM alpine\n".toList)) ∧
    ((splitLines ("FROM alpine\n".toList)).all
      (fun l => !(("Here".toList).isPrefixOf l) &&
        !(("This".toList).isPrefixOf l))) = true ∧
    clean_dockerfile_response ("FROM alpine\n".toList) ≠ ("FROM alpine\n".toList) := by
  exact ⟨by decide, by decide, by decide⟩

/-- C3 (amended): container-file recovery is the identity on texts with no
fence delimiter whose lines are all non-empty, equal to their trimmed form,
and do not begin with a filler opener; blank or untrimmed lines are
additionally required because the loop strips every line and drops empty
ones. -/
theorem spec_c3_idempotent (s : List Char)
    (hfence : ¬ ("```".toList <:+: s))
    (hlines : ∀ l ∈ splitLines s, pyStrip l = l ∧ l.isEmpty = false ∧
      (("Here".toList).isPrefixOf l) = false ∧ (("This".toList).isPrefixOf l) = false) :
    clean_dockerfile_response s = s := by
  unfold clean_dockerfile_response
  rw [stripDockerFences_id s hfence, cleanDockerLines_id (splitLines s) hlines,
    joinNewline_splitLines]

/-- Witness for C3 (amended) on a clean two-line container file. -/
theorem spec_c3_witness :
    clean_dockerfile_response ("FROM alpine\nRUN id".toList) =
      ("FROM alpine\nRUN id".toList) :=
  spec_c3_idempotent ("FROM alpine\nRUN id".toList) (by decide) (by decide)

/-- C4: container-file recovery coincides, on every input, with the
spec-worded pipeline — remove all occurrences of each fence-delimiter variant,
trim every line, drop exactly the lines that are empty or begin with `Here` or
`This`, and join the survivors with newlines in their original order; no fence
variant survives anywhere in the stripped text; and the spec's concrete raw
completion yields exactly `FROM alpine`. -/
theorem spec_c4_docker_recovery :
    (∀ s : List Char,
       clean_dockerfile_response s = specContainerRecovery s ∧
       ∀ v ∈ docker_fence_variants, ¬ (v <:+: stripDockerFences s)) ∧
    clean_dockerfile_response
        ("Here is your file:\n```dockerfile\nFROM alpine\n```".toList) =
      "FROM alpine".toList := by
  refine ⟨fun s => ⟨?_, no_fence_in_stripped s⟩, by rfl⟩
  unfold clean_dockerfile_response specContainerRecovery
  rw [cleanDockerLines_eq_filter]
  rfl

/-- Witness for C4: the equivalence and the removal property applied at
concrete inputs, the latter on text with a mid-stream fence. -/
theorem spec_c4_witness :
    clean_dockerfile_response ("x".toList) = specContainerRecovery ("x".toList) ∧
    ¬ (("```".toList) <:+: stripDockerFences ("a```docker b``` c".toList)) :=
  ⟨(spec_c4_docker_recovery.1 ("x".toList)).1,
   (spec_c4_docker_recovery.1 ("a```docker b``` c".toList)).2 ("```".toList) (by decide)⟩

/-- C5: orchestration-bundle recovery coincides, on every input, with the
spec-worded two-phase scan — after fence stripping, drop every line until the
first whose trimmed form starts with `apiVersion:` or `---`, then keep that
line and every later line unconditionally — and when no line ever qualifies
the result is the empty string, with no exception. -/
theorem spec_c5_k8s_recovery :
    (∀ s : List Char, clean_k8s_response s = specBundleRecovery s) ∧
    (∀ s : List Char,
       ((splitLines (stripK8sFences s)).all (fun l => !qualifiesK8s l)) = true →
       clean_k8s_response s = []) := by
  have hmain : ∀ s : List Char, clean_k8s_response s = specBundleRecovery s := by
    intro s
    unfold clean_k8s_response specBundleRecovery
    rw [cleanK8sLines_false]
  refine ⟨hmain, fun s hall => ?_⟩
  rw [hmain s]
  unfold specBundleRecovery
  have hnil : (splitLines (stripK8sFences s)).dropWhile (fun l => !qualifiesK8s l) = [] := by
    rw [List.dropWhile_eq_nil_iff]
    intro x hx
    simpa using List.all_eq_true.mp hall x hx
  rw [hnil]
  rfl

/-- Witness for C5: a completion with no structured line recovers to the
empty string. -/
theorem spec_c5_witness : clean_k8s_response ("hello there".toList) = [] :=
  spec_c5_k8s_recovery.2 ("hello there".toList) (by decide)

/-- C6 counterexample: a repository whose node manifest lists `express`
(so the node probe matches) but whose requirements listing names `flask`
ends with `default_port = 5000`, not the claimed 3000 — the python probe runs
later and overwrites the port. -/
theorem spec_c6_counterexample :
    nodeHit repoBothFrameworks = true ∧
    (analyze_repository repoBothFrameworks).toOption.map Analysis.default_port =
      some 5000 ∧
    (analyze_repository repoBothFrameworks).toOption.map Analysis.is_web_app =
      some true ∧
    (5000 : Nat) ≠ 3000 := by
  exact ⟨by decide, by rfl, by rfl, by decide⟩

/-- C6 (amended): a parsed node manifest naming an allow-listed framework
gives `is_web_app = true`, and `default_port = 3000` provided the python probe
does not also match (the original claim omitted that proviso); a readable
requirements listing naming an allow-listed python framework (bare name before
`==`, compared case-insensitively) gives `is_web_app = true` with port 8000
when `fastapi` is among the lowered names and 5000 otherwise. -/
theorem spec_c6_web_derivation :
    (∀ (r : Repo) (pkg : PkgJson),
       r.pathExists = true →
       "package.json" ∈ r.files →
       r.packageJson = some pkg →
       web_frameworks_node.any
         (fun fw => (pkg.dependencies.getD []).contains fw) = true →
       pyHit r = false →
       ∃ a, analyze_repository r = Except.ok a ∧
         a.is_web_app = true ∧ a.default_port = 3000) ∧
    (∀ (r : Repo) (content : List Char),
       r.pathExists = true →
       "requirements.txt" ∈ r.files →
       r.requirementsTxt = some content →
       web_frameworks_python.any
         (fun fw => ((parseRequirements content).map pyLower).contains (pyLower fw)) =
           true →
       ∃ a, analyze_repository r = Except.ok a ∧
         a.is_web_app = true ∧
         a.default_port =
           (if ((parseRequirements content).map pyLower).contains ("fastapi".toList)
            then 8000 else 5000)) := by
  constructor
  · intro r pkg hp hm hj hany hpyf
    refine ⟨(analyzeFold r).1, analyze_ok r hp, ?_, ?_⟩
    · rw [(analyzeFold_fields r).2.1, nodeHit_true r pkg hm hj hany]
      rfl
    · rw [(analyzeFold_fields r).1, hpyf]
      rfl
  · intro r content hp hm hr hany
    have hpy : pyHit r = true := pyHit_true r content hm hr hany
    refine ⟨(analyzeFold r).1, analyze_ok r hp, ?_, ?_⟩
    · rw [(analyzeFold_fields r).2.1, hpy]
      simp
    · rw [(analyzeFold_fields r).1, hpy, if_pos rfl, pyPortOf_eq r content hr]

/-- Witness for C6 (amended): `express` alone gives (true, 3000); a `fastapi`
requirements line gives (true, 8000 by the fastapi branch). -/
theorem spec_c6_witness :
    (∃ a, analyze_repository repoExpressOnly = Except.ok a ∧
       a.is_web_app = true ∧ a.default_port = 3000) ∧
    (∃ a, analyze_repository repoFastapi = Except.ok a ∧
       a.is_web_app = true ∧
       a.default_port =
         (if ((parseRequirements ("fastapi==0.100.0".toList)).map pyLower).contains
             ("fastapi".toList) then 8000 else 5000)) :=
  ⟨spec_c6_web_derivation.1 repoExpressOnly
      { name := none, main := none, scripts := [], dependencies := some ["express"] }
      (by rfl) (by decide) (by rfl) (by decide) (by decide),
   spec_c6_web_derivation.2 repoFastapi ("fastapi==0.100.0".toList)
      (by rfl) (by decide) (by rfl) (by decide)⟩

/-- C7: an existing directory containing none of the marker filenames yields a
profile with `languages = []`, `entry_points = []`, `is_web_app = false`,
`default_port = 3000`, and no exception is raised. -/
theorem spec_c7_empty_repo (r : Repo)
    (hp : r.pathExists = true)
    (hnone : ∀ fn ∈ package_files.map Prod.fst ++ common_files, fn ∉ r.files) :
    ∃ a, analyze_repository r = Except.ok a ∧
      a.languages = [] ∧ a.entry_points = [] ∧
      a.is_web_app = false ∧ a.default_port = 3000 := by
  have hpf : ∀ e ∈ package_files, e.1 ∉ r.files := fun e he =>
    hnone e.1 (List.mem_append_left _ (List.mem_map_of_mem Prod.fst he))
  have hcf : ∀ fn ∈ common_files, fn ∉ r.files := fun fn hf =>
    hnone fn (List.mem_append_right _ hf)
  have hpj : "package.json" ∉ r.files := hpf ("package.json", "node") (by decide)
  have hrt : "requirements.txt" ∉ r.files := hpf ("requirements.txt", "python") (by decide)
  have hnh : nodeHit r = false := by unfold nodeHit; simp [hpj]
  have hph : pyHit r = false := by unfold pyHit; simp [hrt]
  refine ⟨(analyzeFold r).1, analyze_ok r hp, ?_, ?_, ?_, ?_⟩
  · rw [(analyzeFold_fields r).2.2.2.2.2.1]
    have : package_files.filter (fun e => decide (e.1 ∈ r.files)) = [] := by
      rw [List.filter_eq_nil_iff]
      intro e he
      simpa using hpf e he
    rw [this]
    rfl
  · rw [(analyzeFold_fields r).2.2.2.2.2.2.1]
    rw [List.filter_eq_nil_iff]
    intro fn hf
    simp [hcf fn hf]
  · rw [(analyzeFold_fields r).2.1, hnh, hph]
    rfl
  · rw [(analyzeFold_fields r).1, hph]
    rfl

/-- Witness for C7 at the concrete empty directory. -/
theorem spec_c7_witness :
    ∃ a, analyze_repository repoEmptyDir = Except.ok a ∧
      a.languages = [] ∧ a.entry_points = [] ∧
      a.is_web_app = false ∧ a.default_port = 3000 :=
  spec_c7_empty_repo repoEmptyDir (by rfl) (by decide)

/-- C8: a present but unparseable manifest never aborts the analysis: the run
still completes with an `ok` profile, the corresponding warning is in the log,
the failed ecosystem's dependency entry is left out, and every other field —
the other ecosystem's dependencies, the web-app flag and port it induces, the
entry points and structure markers — is exactly what the remaining probe files
derive. -/
theorem spec_c8_parse_failures :
    (∀ r : Repo, r.pathExists = true → "package.json" ∈ r.files →
       r.packageJson = none →
       ∃ a w, analyze_repository_logged r = Except.ok (a, w) ∧
         pkgJsonWarning ∈ w ∧ a.node_deps = none ∧
         a.python_deps =
           (if "requirements.txt" ∈ r.files
            then Option.map parseRequirements r.requirementsTxt else none) ∧
         a.is_web_app = pyHit r ∧
         a.default_port = (if pyHit r = true then pyPortOf r else 3000) ∧
         a.entry_points = common_files.filter
           (fun fn => decide (fn ∈ r.files) && decide (fn ∈ entry_file_names)) ∧
         a.structure_ = common_files.filter (fun fn => decide (fn ∈ r.files))) ∧
    (∀ r : Repo, r.pathExists = true → "requirements.txt" ∈ r.files →
       r.requirementsTxt = none →
       ∃ a w, analyze_repository_logged r = Except.ok (a, w) ∧
         reqTxtWarning ∈ w ∧ a.python_deps = none ∧
         a.node_deps =
           (if "package.json" ∈ r.files then Option.map mkNodeDeps r.packageJson
            else none) ∧
         a.is_web_app = nodeHit r ∧
         a.default_port = 3000 ∧
         a.entry_points = common_files.filter
           (fun fn => decide (fn ∈ r.files) && decide (fn ∈ entry_file_names)) ∧
         a.structure_ = common_files.filter (fun fn => decide (fn ∈ r.files))) := by
  constructor
  · intro r hp hm hj
    obtain ⟨f1, f2, f3, f4, f5, f6, f7, f8⟩ := analyzeFold_fields r
    refine ⟨(analyzeFold r).1, (analyzeFold r).2, ?_, ?_, ?_, f4, ?_, f1, f7, f8⟩
    · unfold analyze_repository_logged
      rw [if_pos hp]
    · rw [f5, if_pos ⟨hm, hj⟩]
      exact List.mem_append_left _ (List.mem_singleton.mpr rfl)
    · rw [f3, hj]
      simp
    · rw [f2, nodeHit_false_of_none r hj]
      rfl
  · intro r hp hm hr
    obtain ⟨f1, f2, f3, f4, f5, f6, f7, f8⟩ := analyzeFold_fields r
    have hph : pyHit r = false := pyHit_false_of_none r hr
    refine ⟨(analyzeFold r).1, (analyzeFold r).2, ?_, ?_, ?_, f3, ?_, ?_, f7, f8⟩
    · unfold analyze_repository_logged
      rw [if_pos hp]
    · rw [f5]
      have hw : (if "requirements.txt" ∈ r.files ∧ r.requirementsTxt = none
          then [reqTxtWarning] else []) = [reqTxtWarning] := if_pos ⟨hm, hr⟩
      rw [hw]
      exact List.mem_append_right _ (List.mem_singleton.mpr rfl)
    · rw [f4, hr]
      simp
    · rw [f2, hph]
      simp
    · rw [f1, hph]
      rfl

/-- Witness for C8 at a repository whose `package.json` fails to parse. -/
theorem spec_c8_witness :
    ∃ a w, analyze_repository_logged repoBadPkg = Except.ok (a, w) ∧
      pkgJsonWarning ∈ w ∧ a.node_deps = none ∧
      a.python_deps =
        (if "requirements.txt" ∈ repoBadPkg.files
         then Option.map parseRequirements repoBadPkg.requirementsTxt else none) ∧
      a.is_web_app = pyHit repoBadPkg ∧
      a.default_port = (if pyHit repoBadPkg = true then pyPortOf repoBadPkg else 3000) ∧
      a.entry_points = common_files.filter
        (fun fn => decide (fn ∈ repoBadPkg.files) && decide (fn ∈ entry_file_names)) ∧
      a.structure_ = common_files.filter (fun fn => decide (fn ∈ repoBadPkg.files)) :=
  spec_c8_parse_failures.1 repoBadPkg (by rfl) (by decide) (by rfl)

/-- C9: the analysis raises the not-found error exactly when the path does not
exist — a non-existent path yields the error and no profile, and an existing
directory always yields a completed profile. -/
theorem spec_c9_not_found (r : Repo) :
    (analyze_repository r = Except.error () ↔ r.pathExists = false) ∧
    (r.pathExists = true → ∃ a, analyze_repository r = Except.ok a) := by
  constructor
  · constructor
    · intro h
      by_cases hp : r.pathExists = true
      · rw [analyze_ok r hp] at h
        exact absurd h (by simp)
      · simpa using hp
    · intro hp
      unfold analyze_repository analyze_repository_logged
      rw [if_neg (by simp [hp])]
      rfl
  · intro hp
    exact ⟨(analyzeFold r).1, analyze_ok r hp⟩

/-- Witness for C9: the concrete missing path errors; the concrete existing
directory succeeds. -/
theorem spec_c9_witness :
    (analyze_repository repoMissing = Except.error () ↔
      repoMissing.pathExists = false) ∧
    (∃ a, analyze_repository repoEmptyDir = Except.ok a) :=
  ⟨(spec_c9_not_found repoMissing).1, (spec_c9_not_found repoEmptyDir).2 (by rfl)⟩

/-- C10: when both the node and the python probe match, the python-derived
port wins — `package.json` is processed before `requirements.txt` in the fixed
probe table, so the later python match overwrites `default_port` (8000 with
`fastapi`, else 5000) while `is_web_app` stays true. -/
theorem spec_c10_port_override (r : Repo) (pkg : PkgJson) (content : List Char)
    (hp : r.pathExists = true)
    (hmj : "package.json" ∈ r.files) (hj : r.packageJson = some pkg)
    (hnode : web_frameworks_node.any
      (fun fw => (pkg.dependencies.getD []).contains fw) = true)
    (hmr : "requirements.txt" ∈ r.files) (hr : r.requirementsTxt = some content)
    (hpy : web_frameworks_python.any
      (fun fw => ((parseRequirements content).map pyLower).contains (pyLower fw)) =
        true) :
    ∃ a, analyze_repository r = Except.ok a ∧
      a.is_web_app = true ∧
      a.default_port =
        (if ((parseRequirements content).map pyLower).contains ("fastapi".toList)
         then 8000 else 5000) := by
  have hph : pyHit r = true := pyHit_true r content hmr hr hpy
  refine ⟨(analyzeFold r).1, analyze_ok r hp, ?_, ?_⟩
  · rw [(analyzeFold_fields r).2.1, nodeHit_true r pkg hmj hj hnode]
    rfl
  · rw [(analyzeFold_fields r).1, hph, if_pos rfl, pyPortOf_eq r content hr]

/-- Witness for C10 at the express-plus-flask repository: the port is 5000. -/
theorem spec_c10_witness :
    ∃ a, analyze_repository repoBothFrameworks = Except.ok a ∧
      a.is_web_app = true ∧
      a.default_port =
        (if ((parseRequirements ("flask==2.0".toList)).map pyLower).contains
            ("fastapi".toList) then 8000 else 5000) :=
  spec_c10_port_override repoBothFrameworks
    { name := some "demo", main := none, scripts := [], dependencies := some ["express"] }
    ("flask==2.0".toList) (by rfl) (by decide) (by rfl) (by decide) (by decide)
    (by rfl) (by decide)
